import Mathlib

/-!
Shallow embedding of the Bilibili-AutoDanmaku post-processing pipeline
(`process_recording.py` and `utils/subprocess_utils.py`).

Python numbers (the probed duration, the configured segment lengths) are
modelled as rationals; paths are modelled as lists of components with
`joinpath` appending (the relative-path case of `pathlib`); fallible code
returns an explicit result value.  The non-terminating splitting loop is
embedded with a fuel parameter: `none` means the fuel ran out before the
loop exited.
-/

namespace AutoDanmaku

/-- A filesystem path, as a list of components. -/
abbrev FsPath := List String

/-- Model of `pathlib.Path.joinpath` for relative paths: append components. -/
def joinpath (d p : FsPath) : FsPath := d ++ p

/-- The `RawConfig` dataclass of `process_recording.py` (field for field). -/
structure RawConfig where
  directory : FsPath
  ignore_video_length : ℚ
  add_danmaku : Bool
  xml_file : FsPath
  ass_file : FsPath
  merged_video : FsPath
  video_with_danmaku : FsPath
  codec : Option String
  force_resolution : Bool
  resolution : String
  temp_dir : FsPath
  smart_merge : Bool
  split : Bool
  initial_segment_length : ℚ
  segment_length : ℚ
  segment_extra : ℚ
  danmaku_offset : ℚ
deriving DecidableEq, Repr

/-- The `Config` class: the raw fields plus the derived `final_video`. -/
structure Config extends RawConfig where
  final_video : FsPath
deriving DecidableEq, Repr

/-- `Config.__init__`: copy the raw attributes, then resolve each path field
against the source directory once, and derive `final_video` from the
`add_danmaku` toggle (lines 39-48 of `process_recording.py`). -/
def Config.ofRaw (raw : RawConfig) : Config :=
  { toRawConfig :=
      { raw with
        xml_file := joinpath raw.directory raw.xml_file
        ass_file := joinpath raw.directory raw.ass_file
        merged_video := joinpath raw.directory raw.merged_video
        video_with_danmaku := joinpath raw.directory raw.video_with_danmaku
        temp_dir := joinpath raw.directory raw.temp_dir }
    final_video :=
      if raw.add_danmaku then joinpath raw.directory raw.video_with_danmaku
      else joinpath raw.directory raw.merged_video }

/-- `update_final_video` (lines 55-56): recompute the derived field from the
toggle, leaving every other field unchanged. -/
def update_final_video (c : Config) : Config :=
  { c with final_video := if c.add_danmaku then c.video_with_danmaku else c.merged_video }

/-- The correspondence the spec calls the derived-field invariant:
`final_video` agrees with the danmaku toggle. -/
def finalVideoInvariant (c : Config) : Prop :=
  c.final_video = if c.add_danmaku then c.video_with_danmaku else c.merged_video

/-- A scanned fragment file together with its probed duration
(`get_video_duration` is external; the probed value is carried as data). -/
structure MediaFragment where
  name : String
  duration : ℚ
deriving DecidableEq, Repr

instance {ε α : Type} [DecidableEq ε] [DecidableEq α] : DecidableEq (Except ε α) :=
  fun x y =>
    match x, y with
    | Except.ok a, Except.ok b =>
        if h : a = b then isTrue (by rw [h])
        else isFalse (fun hh => h (Except.ok.inj hh))
    | Except.error a, Except.error b =>
        if h : a = b then isTrue (by rw [h])
        else isFalse (fun hh => h (Except.error.inj hh))
    | Except.ok _, Except.error _ => isFalse (fun hh => Except.noConfusion hh)
    | Except.error _, Except.ok _ => isFalse (fun hh => Except.noConfusion hh)

/-- The Segment Filter part of `merge_videos` (lines 77-85): assert that the
directory scan found at least one fragment, then keep exactly the fragments
whose probed duration is at least `ignore_video_length`.  `Except.ok l`
means the function goes on to hand `l` to `smart_merge` and the external
concatenation; `Except.error` is the `AssertionError`. -/
def merge_videos (files : List MediaFragment) (ignore_video_length : ℚ) :
    Except String (List MediaFragment) :=
  if 0 < files.length then
    Except.ok (files.filter (fun f => decide (ignore_video_length ≤ f.duration)))
  else
    Except.error "No flv file found."

/-- An element of the argument vector handed to `run_subprocess`: Python
strings, ints, floats and `pathlib` paths all occur at its call sites. -/
inductive Arg where
  | str : String → Arg
  | int : ℤ → Arg
  | float : ℚ → Arg
  | path : FsPath → Arg
deriving DecidableEq, Repr

/-- Model of Python `str` applied to a float value. -/
def floatRepr (q : ℚ) : String := toString q.num ++ "/" ++ toString q.den

/-- One step of the conversion loop of `run_subprocess` (lines 6-8 of
`subprocess_utils.py`): `isinstance(args[index], float)` replaces exactly
the float entries by their text form; every other entry is left as is. -/
def convertArg : Arg → Arg
  | Arg.float q => Arg.str (floatRepr q)
  | a => a

/-- The whole conversion loop over the argument vector. -/
def convertArgs (args : List Arg) : List Arg := args.map convertArg

/-- Text rendering of one argument, used for the printed diagnostics. -/
def argRepr : Arg → String
  | Arg.str s => s
  | Arg.int n => toString n
  | Arg.float q => floatRepr q
  | Arg.path p => String.intercalate "/" p

/-- Whether an argument is a Python `str`. -/
def isStr : Arg → Bool
  | Arg.str _ => true
  | _ => false

/-- Model of `" ".join(args)`: Python raises `TypeError` as soon as one item
of the sequence is not a `str` (a `Path` or an `int` is not). -/
def strJoin (args : List Arg) : Except String String :=
  if args.all isStr then
    Except.ok (String.intercalate " " (args.map argRepr))
  else
    Except.error "TypeError: expected str instance"

/-- Model of `print(args)`: the text form of the argument vector. -/
def argsRepr (args : List Arg) : String :=
  String.intercalate ", " (args.map argRepr)

/-- Outcome of the external tool: its return code and its captured standard
output (`None` when nothing was captured). -/
structure ProcResult where
  returncode : ℤ
  stdout : Option String
deriving DecidableEq, Repr

/-- Model of Python `str` on an optional captured output. -/
def pyStrOpt : Option String → String
  | none => "None"
  | some s => s

/-- How a call of `run_subprocess` ends: a normal return of text, a process
termination via `exit`, or an uncaught exception. -/
inductive RunResult where
  | ok : String → RunResult
  | exited : ℤ → RunResult
  | raised : String → RunResult
deriving DecidableEq, Repr

/-- A run of `run_subprocess`: the lines it printed and how it ended. -/
structure RunOutcome where
  printed : List String
  result : RunResult
deriving DecidableEq, Repr

def errorBanner : String := "===================Error Logs===================="

def tracebackText : String := "Traceback (most recent call last)"

/-- The `try` block of `run_subprocess` (lines 11-20): run the tool, return
`str(p.stdout)` on return code zero; otherwise print the banner, the failing
argument vector, the captured output and a failure trace, and exit 1. -/
def runChecked (proc : List Arg → ProcResult) (args2 : List Arg) : RunOutcome :=
  let p := proc args2
  if p.returncode = 0 then
    { printed := [], result := RunResult.ok (pyStrOpt p.stdout) }
  else
    { printed := [errorBanner, argsRepr args2, pyStrOpt p.stdout, tracebackText],
      result := RunResult.exited 1 }

/-- `run_subprocess` (lines 5-20 of `subprocess_utils.py`): convert float
arguments to text, echo the joined command line when asked (where the join
raises `TypeError` on a non-`str` item, uncaught by the `except` clause,
which only handles `CalledProcessError`), then run the tool. -/
def run_subprocess (proc : List Arg → ProcResult) (args : List Arg) (echo : Bool) :
    RunOutcome :=
  let args2 := convertArgs args
  match (if echo then (strJoin args2).map (fun line => [line]) else Except.ok []) with
  | Except.error e => { printed := [], result := RunResult.raised e }
  | Except.ok pre =>
      let body := runChecked proc args2
      { printed := pre ++ body.printed, result := body.result }

/-- The `TimeInterval(segment_start, segment_end)` pair handed to
`clip_section`. -/
structure TimeInterval where
  start : ℚ
  stop : ℚ
deriving DecidableEq, Repr

/-- The `while segment_start < duration` loop of `split_final_video`
(lines 140-146), with fuel: each iteration emits the current
`(segment_start, segment_end)` clip, then advances
`segment_start := next_start`, `next_start := segment_start + segment_length`,
`segment_end := next_start + segment_extra`.  `none` means the fuel ran out
before the loop condition failed. -/
def splitLoop (segment_length segment_extra duration : ℚ) :
    ℕ → ℚ → ℚ → ℚ → Option (List TimeInterval)
  | 0, _, _, _ => none
  | fuel + 1, segment_start, next_start, segment_end =>
      if segment_start < duration then
        match splitLoop segment_length segment_extra duration fuel next_start
            (next_start + segment_length) (next_start + segment_length + segment_extra) with
        | some rest => some (⟨segment_start, segment_end⟩ :: rest)
        | none => none
      else
        some []

/-- `split_final_video` (lines 126-147), from the point where the final
artifact exists and its duration has been probed.  Initially
`segment_start = 0`, `next_start = initial_segment_length` and
`segment_end = initial_segment_length + segment_extra`; when that first
`segment_end` already reaches the duration no parts are produced, else the
loop runs. -/
def split_final_video (split : Bool)
    (initial_segment_length segment_length segment_extra duration : ℚ)
    (fuel : ℕ) : Option (List TimeInterval) :=
  if split = false then
    some []
  else if initial_segment_length + segment_extra ≥ duration then
    some []
  else
    splitLoop segment_length segment_extra duration fuel
      0 initial_segment_length (initial_segment_length + segment_extra)

/-- The boundary chaining of successive parts: each later part starts at the
nominal end (`stop - segment_extra`) of the part before it, and ends one
steady window plus the overlap after that point. -/
def chained (segment_length segment_extra : ℚ) : List TimeInterval → Prop
  | [] => True
  | [_] => True
  | a :: b :: rest =>
      b.start = a.stop - segment_extra ∧
      b.stop = a.stop - segment_extra + (segment_length + segment_extra) ∧
      chained segment_length segment_extra (b :: rest)

/-- How a Python callable ends in the danmaku-stage model: a normal return,
a raised exception (with its message), or a process termination. -/
inductive PyResult (α : Type) where
  | ret : α → PyResult α
  | exn : String → PyResult α
  | exit : ℤ → PyResult α
deriving DecidableEq, Repr

/-- One invocation of the external media tooling made by the danmaku stage. -/
inductive ToolCall where
  | danmaku2ass : FsPath → String → FsPath → ToolCall
  | ffmpeg_offset : FsPath → FsPath → ToolCall
  | ffmpeg_burn : FsPath → FsPath → ToolCall
deriving DecidableEq, Repr

/-- The observable state threaded through the danmaku stage: the files
present on disk, the external invocations made so far, and the warnings
logged so far. -/
structure PipeState where
  fs : List FsPath
  calls : List ToolCall
  warnings : List String
deriving DecidableEq, Repr

/-- Record an external invocation; its effect on the filesystem is supplied
by the `runTool` oracle (the tools are external collaborators). -/
def invokeTool (runTool : ToolCall → List FsPath → List FsPath) (c : ToolCall)
    (s : PipeState) : PipeState :=
  { s with calls := s.calls ++ [c], fs := runTool c s.fs }

/-- `create_xml_danmaku` (lines 59-60): always raises. -/
def create_xml_danmaku (s : PipeState) : PipeState × PyResult Unit :=
  (s, PyResult.exn
    "Please use BililiveRecorder to merge all xml files into a single danmaku.xml file.")

/-- Modelled from the spec: `execute_if_not_exist` lives in
`utils/file_utils.py`, which is not among the sources.  Per the Idempotency
Guard contract of the spec: if the target artifact exists, do nothing and
report success; otherwise invoke the producer; if the producer raises and
exit-on-failure is set, terminate the process, and if it raises otherwise,
report failure to the caller; the guard never re-checks existence after the
producer, so a producer that returns normally is reported as success. -/
def execute_if_not_exist (target : FsPath)
    (producer : PipeState → PipeState × PyResult Unit) (exit_if_fail : Bool)
    (s : PipeState) : PipeState × PyResult Bool :=
  if target ∈ s.fs then
    (s, PyResult.ret true)
  else
    match producer s with
    | (s1, PyResult.ret _) => (s1, PyResult.ret true)
    | (s1, PyResult.exn _) =>
        if exit_if_fail then (s1, PyResult.exit 1) else (s1, PyResult.ret false)
    | (s1, PyResult.exit n) => (s1, PyResult.exit n)

/-- Modelled from the spec: `assert_file_exists` lives in
`utils/file_utils.py`, which is not among the sources.  Per the spec, an
expected artifact absent when required raises an assertion-style failure. -/
def assert_file_exists (file : FsPath) (s : PipeState) : PyResult Unit :=
  if file ∈ s.fs then PyResult.ret () else PyResult.exn "AssertionError: file not found"

/-- `create_ass_danmaku` (lines 63-74): run `create_xml_danmaku` under the
guard; on failure log a warning and return; otherwise invoke the external
converter and the offset pass (their file effects come from `runTool`). -/
def create_ass_danmaku (cfg : Config) (runTool : ToolCall → List FsPath → List FsPath)
    (resolution : String) (s : PipeState) : PipeState × PyResult Unit :=
  match execute_if_not_exist cfg.xml_file create_xml_danmaku false s with
  | (s1, PyResult.ret success) =>
      if success then
        let temp_ass := joinpath cfg.temp_dir ["temp_danmaku.ass"]
        let s2 := invokeTool runTool (ToolCall.danmaku2ass temp_ass resolution cfg.xml_file) s1
        let s3 := invokeTool runTool (ToolCall.ffmpeg_offset temp_ass cfg.ass_file) s2
        (s3, PyResult.ret ())
      else
        ({ s1 with warnings := s1.warnings ++ ["Cannot create xml danmaku file."] },
         PyResult.ret ())
  | (s1, PyResult.exn e) => (s1, PyResult.exn e)
  | (s1, PyResult.exit n) => (s1, PyResult.exit n)

/-- `add_danmaku_to_video` (lines 95-116): assert the merged video exists,
run `create_ass_danmaku` under the guard, raise the no-danmaku error when
the guard reports failure, else build the filter chain and invoke the burn.
The message paraphrases the source string without its apostrophe. -/
def add_danmaku_to_video (cfg : Config) (runTool : ToolCall → List FsPath → List FsPath)
    (s : PipeState) : PipeState × PyResult Unit :=
  match assert_file_exists cfg.merged_video s with
  | PyResult.ret _ =>
      let resolution := if cfg.force_resolution then cfg.resolution else "1920x1080"
      match execute_if_not_exist cfg.ass_file (create_ass_danmaku cfg runTool resolution)
          false s with
      | (s1, PyResult.ret success) =>
          if success then
            (invokeTool runTool (ToolCall.ffmpeg_burn cfg.merged_video cfg.video_with_danmaku) s1,
             PyResult.ret ())
          else
            (s1, PyResult.exn
              "ERROR: No danmaku file found. Change config.json if you do not want danmaku in the video.")
      | (s1, PyResult.exn e) => (s1, PyResult.exn e)
      | (s1, PyResult.exit n) => (s1, PyResult.exit n)
  | PyResult.exn e => (s, PyResult.exn e)
  | PyResult.exit n => (s, PyResult.exit n)

/-- The default raw configuration of `process_recording.py` with `add_danmaku`
switched on, used for the concrete Scenario E runs. -/
def scenarioRaw : RawConfig :=
  { directory := ["rec"]
    ignore_video_length := 0
    add_danmaku := true
    xml_file := ["danmaku.xml"]
    ass_file := ["danmaku.ass"]
    merged_video := ["merged.flv"]
    video_with_danmaku := ["video_with_danmaku.flv"]
    codec := none
    force_resolution := false
    resolution := "1920x1080"
    temp_dir := ["temp"]
    smart_merge := false
    split := true
    initial_segment_length := 14400
    segment_length := 3600
    segment_extra := 3
    danmaku_offset := -3 }

/-- Scenario E starting state: the merged video exists, the raw comment
stream and the subtitle track do not. -/
def scenarioState : PipeState :=
  { fs := [(Config.ofRaw scenarioRaw).merged_video], calls := [], warnings := [] }

/-- A tool oracle that leaves the filesystem unchanged. -/
def idleTool : ToolCall → List FsPath → List FsPath := fun _ fs => fs

/-- A five-fragment scan in which three fragments fall below a threshold of
five seconds (Scenario A of the spec). -/
def frags5 : List MediaFragment :=
  [⟨"a.flv", 1⟩, ⟨"b.flv", 2⟩, ⟨"c.flv", 3⟩, ⟨"d.flv", 6⟩, ⟨"e.flv", 7⟩]

/-- Claim C2 is false on the code: with one scanned fragment of duration 0
and a threshold of 1, zero fragments remain after filtering, yet
`merge_videos` does not raise; it proceeds to the merge with an empty
fragment list. -/
theorem merge_videos_all_filtered_no_error :
    List.filter (fun f => decide ((1 : ℚ) ≤ f.duration)) [MediaFragment.mk "a.flv" 0]
        = [] ∧
    merge_videos [MediaFragment.mk "a.flv" 0] 1 = Except.ok [] := by
  decide

/-- Claim C2, amended: the Segment Filter raises its explicit error, and does
not proceed to the ordering and concatenation, exactly when the directory
scan found zero fragments; the assertion runs before duration filtering, so
a scan whose fragments are all filtered out still proceeds to the merge. -/
theorem merge_videos_error_iff_empty_scan (files : List MediaFragment) (m : ℚ) :
    merge_videos files m = Except.error "No flv file found." ↔ files = [] := by
  cases files <;> simp [merge_videos]

/-- Claim C4: whenever `merge_videos` proceeds, the list it hands on retains
no fragment with probed duration strictly below the threshold and retains
every scanned fragment whose probed duration reaches the threshold. -/
theorem merge_videos_filter_spec (files : List MediaFragment) (m : ℚ)
    (kept : List MediaFragment) (h : merge_videos files m = Except.ok kept) :
    (∀ f ∈ kept, m ≤ f.duration) ∧ (∀ f ∈ files, m ≤ f.duration → f ∈ kept) := by
  cases files with
  | nil => simp [merge_videos] at h
  | cons a l =>
      rw [merge_videos, if_pos (by simp)] at h
      have hk : kept = (a :: l).filter (fun f => decide (m ≤ f.duration)) :=
        (Except.ok.inj h).symm
      subst hk
      constructor
      · intro f hf
        have := List.of_mem_filter hf
        simpa using this
      · intro f hf hm
        exact List.mem_filter.mpr ⟨hf, by simpa using hm⟩

/-- Witness for C4, Scenario A: five scanned fragments, three below the
threshold; exactly the two long fragments are retained and the no-fragments
assertion does not trigger. -/
theorem merge_videos_filter_spec_witness :
    merge_videos frags5 5 = Except.ok [⟨"d.flv", 6⟩, ⟨"e.flv", 7⟩] ∧
    (5 : ℚ) ≤ (MediaFragment.mk "d.flv" 6).duration :=
  ⟨by decide,
   (merge_videos_filter_spec frags5 5 [⟨"d.flv", 6⟩, ⟨"e.flv", 7⟩] (by decide)).1
     ⟨"d.flv", 6⟩ (by decide)⟩

/-- Claim C5 is false on the code: an integer argument is not converted by
the loop (only floats are), so the tool still receives a non-text numeric
argument. -/
theorem convertArgs_keeps_int :
    convertArgs [Arg.str "ffmpeg", Arg.int 64] = [Arg.str "ffmpeg", Arg.int 64] ∧
    Arg.int 64 ∈ convertArgs [Arg.str "ffmpeg", Arg.int 64] := by
  decide

/-- Claim C5, amended: the conversion loop turns exactly the floating-point
arguments into their text representation and passes every other argument,
integers included, through unchanged; no float survives it. -/
theorem convertArgs_floats_only (args : List Arg) :
    (∀ q : ℚ, Arg.float q ∉ convertArgs args) ∧
    (∀ q : ℚ, Arg.float q ∈ args → Arg.str (floatRepr q) ∈ convertArgs args) ∧
    (∀ a, a ∈ args → (∀ q : ℚ, a ≠ Arg.float q) → a ∈ convertArgs args) := by
  refine ⟨?_, ?_, ?_⟩
  · intro q hq
    obtain ⟨a, _, hconv⟩ := List.mem_map.mp hq
    cases a <;> simp [convertArg] at hconv
  · intro q hq
    have : convertArg (Arg.float q) = Arg.str (floatRepr q) := rfl
    exact this ▸ List.mem_map_of_mem convertArg hq
  · intro a ha hnf
    have : convertArg a = a := by
      cases a with
      | float q => exact absurd rfl (hnf q)
      | str s => rfl
      | int n => rfl
      | path p => rfl
    exact this ▸ List.mem_map_of_mem convertArg ha

/-- Witness for the amended C5: a float is converted, a string survives. -/
theorem convertArgs_floats_only_witness :
    Arg.str "a" ∈ convertArgs [Arg.float 3, Arg.str "a"] :=
  (convertArgs_floats_only [Arg.float 3, Arg.str "a"]).2.2 (Arg.str "a") (by decide)
    (fun _ h => Arg.noConfusion h)

/-- Claim C8: after construction every path field of the configuration is
the source directory joined with its raw value, joined exactly once, the
derived `final_video` agrees with the danmaku toggle, and the one operation
of the pipeline that rewrites the derived field, `update_final_video`,
re-establishes the same correspondence on any configuration. -/
theorem config_paths_resolved_once (raw : RawConfig) (c : Config) :
    (Config.ofRaw raw).xml_file = joinpath raw.directory raw.xml_file ∧
    (Config.ofRaw raw).ass_file = joinpath raw.directory raw.ass_file ∧
    (Config.ofRaw raw).merged_video = joinpath raw.directory raw.merged_video ∧
    (Config.ofRaw raw).video_with_danmaku = joinpath raw.directory raw.video_with_danmaku ∧
    (Config.ofRaw raw).temp_dir = joinpath raw.directory raw.temp_dir ∧
    finalVideoInvariant (Config.ofRaw raw) ∧
    finalVideoInvariant (update_final_video c) := by
  refine ⟨rfl, rfl, rfl, rfl, rfl, ?_, ?_⟩
  · unfold finalVideoInvariant Config.ofRaw
    cases raw.add_danmaku <;> simp
  · unfold finalVideoInvariant update_final_video
    rfl

/-- Claim C6 fails on the code: with the echo flag set, a path argument (as
the merge and burn call sites pass) makes the command-line join raise an
uncaught TypeError before the tool is ever invoked, while the same vector
with the flag unset runs the tool and returns its output, so the flag is not
behavior-free. -/
theorem run_subprocess_echo_changes_outcome :
    (run_subprocess (fun _ => ⟨0, some "out"⟩)
        [Arg.str "ffmpeg", Arg.path ["files.txt"]] true).result
      = RunResult.raised "TypeError: expected str instance" ∧
    (run_subprocess (fun _ => ⟨0, some "out"⟩)
        [Arg.str "ffmpeg", Arg.path ["files.txt"]] false).result
      = RunResult.ok "out" := by
  decide

/-- Claim C7: provided the invocation itself is reached (the echo line, when
requested, joined without a type error), a non-zero tool exit makes
`run_subprocess` print the failing argument vector, the captured output and
a failure trace and terminate the process with status 1, never returning a
value; a zero exit returns the text of the captured standard output. -/
theorem run_subprocess_failfast (proc : List Arg → ProcResult) (args : List Arg)
    (echo : Bool)
    (hech : echo = false ∨ (convertArgs args).all isStr = true) :
    ((proc (convertArgs args)).returncode ≠ 0 →
      (run_subprocess proc args echo).result = RunResult.exited 1 ∧
      argsRepr (convertArgs args) ∈ (run_subprocess proc args echo).printed ∧
      pyStrOpt (proc (convertArgs args)).stdout ∈ (run_subprocess proc args echo).printed ∧
      tracebackText ∈ (run_subprocess proc args echo).printed) ∧
    ((proc (convertArgs args)).returncode = 0 →
      (run_subprocess proc args echo).result
        = RunResult.ok (pyStrOpt (proc (convertArgs args)).stdout)) := by
  have hrun : run_subprocess proc args echo =
      { printed := (if echo then [String.intercalate " " ((convertArgs args).map argRepr)]
                    else []) ++ (runChecked proc (convertArgs args)).printed,
        result := (runChecked proc (convertArgs args)).result } := by
    cases echo with
    | false => simp [run_subprocess]
    | true =>
        rcases hech with h | h
        · exact absurd h (by simp)
        · simp [run_subprocess, strJoin, h, Except.map]
  constructor
  · intro hne
    have hbody : runChecked proc (convertArgs args) =
        { printed := [errorBanner, argsRepr (convertArgs args),
                      pyStrOpt (proc (convertArgs args)).stdout, tracebackText],
          result := RunResult.exited 1 } := by
      rw [runChecked, if_neg hne]
    rw [hrun, hbody]
    refine ⟨rfl, ?_, ?_, ?_⟩ <;> cases echo <;> simp
  · intro hz
    have hbody : runChecked proc (convertArgs args) =
        { printed := [],
          result := RunResult.ok (pyStrOpt (proc (convertArgs args)).stdout) } := by
      rw [runChecked, if_pos hz]
    rw [hrun, hbody]

/-- Witness for C7: a tool exiting with status 2 makes the call terminate
the process with status 1. -/
theorem run_subprocess_failfast_witness :
    (run_subprocess (fun _ => ⟨2, some "boom"⟩) [Arg.str "x"] false).result
      = RunResult.exited 1 :=
  ((run_subprocess_failfast (fun _ => ⟨2, some "boom"⟩) [Arg.str "x"] false
      (Or.inl rfl)).1 (by decide)).1

/-- Claim C9 is false on the modelled code: in Scenario E (danmaku requested,
merged video present, raw comment stream and subtitle track absent)
`add_danmaku_to_video` returns normally rather than raising the error that
names the missing capability, because the missing-source failure is absorbed
as a warning inside `create_ass_danmaku` and the guard reports the producer
as successful; the burn is then invoked with the subtitle file still
missing. -/
theorem add_danmaku_scenarioE_no_error :
    (add_danmaku_to_video (Config.ofRaw scenarioRaw) idleTool scenarioState).2
        = PyResult.ret () ∧
    "Cannot create xml danmaku file."
        ∈ (add_danmaku_to_video (Config.ofRaw scenarioRaw) idleTool scenarioState).1.warnings ∧
    ToolCall.ffmpeg_burn (Config.ofRaw scenarioRaw).merged_video
        (Config.ofRaw scenarioRaw).video_with_danmaku
        ∈ (add_danmaku_to_video (Config.ofRaw scenarioRaw) idleTool scenarioState).1.calls := by
  decide

/-- Claim C9, amended: whenever the merged video exists and both the raw
comment stream and the subtitle track are absent, `create_ass_danmaku` logs
the warning and returns without producing the subtitle track, the guard
reports success, and `add_danmaku_to_video` returns normally after invoking
the external burn on the still-missing subtitle file; the explicit
no-danmaku error of line 102 is not raised. -/
theorem add_danmaku_missing_comment_source (cfg : Config)
    (runTool : ToolCall → List FsPath → List FsPath) (s : PipeState)
    (hm : cfg.merged_video ∈ s.fs) (ha : cfg.ass_file ∉ s.fs)
    (hx : cfg.xml_file ∉ s.fs) :
    (add_danmaku_to_video cfg runTool s).2 = PyResult.ret () ∧
    "Cannot create xml danmaku file."
        ∈ (add_danmaku_to_video cfg runTool s).1.warnings ∧
    ToolCall.ffmpeg_burn cfg.merged_video cfg.video_with_danmaku
        ∈ (add_danmaku_to_video cfg runTool s).1.calls := by
  have hres : add_danmaku_to_video cfg runTool s =
      (invokeTool runTool (ToolCall.ffmpeg_burn cfg.merged_video cfg.video_with_danmaku)
        { s with warnings := s.warnings ++ ["Cannot create xml danmaku file."] },
       PyResult.ret ()) := by
    simp [add_danmaku_to_video, assert_file_exists, execute_if_not_exist,
      create_ass_danmaku, create_xml_danmaku, hm, ha, hx]
  rw [hres]
  refine ⟨rfl, ?_, ?_⟩ <;> simp [invokeTool]

/-- Witness for the amended C9, at the Scenario E configuration and state. -/
theorem add_danmaku_missing_comment_source_witness :
    (add_danmaku_to_video (Config.ofRaw scenarioRaw) idleTool scenarioState).2
        = PyResult.ret () :=
  (add_danmaku_missing_comment_source (Config.ofRaw scenarioRaw) idleTool scenarioState
    (by decide) (by decide) (by decide)).1

/-- Everything the splitting loop guarantees about the part list it emits,
relative to the loop state it starts from: when the loop exits within the
fuel from state `(s, ns, ns + O)`, the list is empty exactly when the start
already reached the duration, the first part is `(s, ns + O)`, the later
parts all span one steady window plus the overlap, successive parts chain at
nominal ends, every emitted start is below the duration, the start the loop
stopped at (the nominal end of the last part) reached the duration, and the
nominal spans cover every instant from `s` up to the duration. -/
theorem splitLoop_spec (S O D : ℚ) :
    ∀ (fuel : ℕ) (s ns : ℚ) (l : List TimeInterval),
      splitLoop S O D fuel s ns (ns + O) = some l →
      ((l = [] ↔ D ≤ s) ∧
       (∀ h : l ≠ [], l.head h = ⟨s, ns + O⟩) ∧
       (∀ iv ∈ l.tail, iv.stop - iv.start = S + O) ∧
       chained S O l ∧
       (∀ iv ∈ l, iv.start < D) ∧
       (∀ h : l ≠ [], D ≤ (l.getLast h).stop - O) ∧
       (∀ x : ℚ, s ≤ x → x < D → ∃ iv ∈ l, iv.start ≤ x ∧ x < iv.stop - O)) := by
  intro fuel
  induction fuel with
  | zero =>
      intro s ns l h
      exact absurd h (by simp [splitLoop])
  | succ n ih =>
      intro s ns l h
      by_cases hs : s < D
      · rw [splitLoop, if_pos hs] at h
        cases hrec : splitLoop S O D n ns (ns + S) (ns + S + O) with
        | none => rw [hrec] at h; cases h
        | some rest =>
            rw [hrec] at h
            have hl : l = ⟨s, ns + O⟩ :: rest := (Option.some.inj h).symm
            subst hl
            obtain ⟨IH1, IH2, IH3, IH4, IH5, IH6, IH7⟩ := ih ns (ns + S) rest hrec
            refine ⟨?_, ?_, ?_, ?_, ?_, ?_, ?_⟩
            · constructor
              · intro h0; exact absurd h0 (List.cons_ne_nil _ _)
              · intro hDs; exact absurd hs (not_lt.mpr hDs)
            · intro _; rfl
            · intro iv hiv
              rcases rest with _ | ⟨b, rest2⟩
              · cases hiv
              · rcases List.mem_cons.mp hiv with h1 | h2
                · have hb : b = ⟨ns, ns + S + O⟩ := IH2 (List.cons_ne_nil b rest2)
                  subst h1
                  rw [hb]
                  show ns + S + O - ns = S + O
                  ring
                · exact IH3 iv h2
            · rcases rest with _ | ⟨b, rest2⟩
              · exact trivial
              · have hb : b = ⟨ns, ns + S + O⟩ := IH2 (List.cons_ne_nil b rest2)
                refine ⟨?_, ?_, IH4⟩
                · rw [hb]; show ns = (ns + O) - O; ring
                · rw [hb]; show ns + S + O = (ns + O) - O + (S + O); ring
            · intro iv hiv
              rcases List.mem_cons.mp hiv with h1 | h2
              · rw [h1]; exact hs
              · exact IH5 iv h2
            · intro _
              rcases rest with _ | ⟨b, rest2⟩
              · have hD : D ≤ ns := IH1.mp rfl
                have : ([⟨s, ns + O⟩] : List TimeInterval).getLast (by simp)
                    = ⟨s, ns + O⟩ := rfl
                rw [List.getLast_singleton]
                show D ≤ (ns + O) - O
                linarith
              · rw [List.getLast_cons (List.cons_ne_nil b rest2)]
                exact IH6 (List.cons_ne_nil b rest2)
            · intro x hx hxD
              by_cases hxn : x < ns
              · refine ⟨⟨s, ns + O⟩, List.mem_cons_self _ _, hx, ?_⟩
                show x < (ns + O) - O
                linarith
              · obtain ⟨iv, hmem, h1, h2⟩ := IH7 x (not_lt.mp hxn) hxD
                exact ⟨iv, List.mem_cons_of_mem _ hmem, h1, h2⟩
      · rw [splitLoop, if_neg hs] at h
        have hl : l = [] := (Option.some.inj h).symm
        subst hl
        refine ⟨⟨fun _ => not_lt.mp hs, fun _ => rfl⟩, ?_, ?_, trivial, ?_, ?_, ?_⟩
        · intro hne; exact absurd rfl hne
        · intro iv hiv; cases hiv
        · intro iv hiv; cases hiv
        · intro hne; exact absurd rfl hne
        · intro x hx hxD; exact absurd (lt_of_le_of_lt hx hxD) hs

/-- Claim C1: when the splitter runs and its loop exits within the fuel,
no parts are produced when `I + O` already reaches the duration; otherwise
the parts list is empty exactly when the running start (0) already fails the
loop condition, the first part is the interval `[0, I + O]` (length
`I + O`), every later part spans `S + O`, the nominal end of each part is
the start of the next, every emitted start is below the duration, and the
nominal end of the last part has reached the duration (no content skipped,
the loop stopped exactly when the running start reached the duration). -/
theorem split_final_video_parts (I S O D : ℚ) (fuel : ℕ) (parts : List TimeInterval)
    (h : split_final_video true I S O D fuel = some parts) :
    (I + O ≥ D → parts = []) ∧
    (I + O < D →
      (parts = [] ↔ D ≤ 0) ∧
      (∀ hne : parts ≠ [], parts.head hne = ⟨0, I + O⟩) ∧
      (∀ iv ∈ parts.tail, iv.stop - iv.start = S + O) ∧
      chained S O parts ∧
      (∀ iv ∈ parts, iv.start < D) ∧
      (∀ hne : parts ≠ [], D ≤ (parts.getLast hne).stop - O)) := by
  constructor
  · intro hge
    rw [split_final_video, if_neg (by simp), if_pos hge] at h
    exact (Option.some.inj h).symm
  · intro hlt
    rw [split_final_video, if_neg (by simp), if_neg (not_le.mpr hlt)] at h
    obtain ⟨H1, H2, H3, H4, H5, H6, _⟩ := splitLoop_spec S O D fuel 0 I parts h
    exact ⟨H1, H2, H3, H4, H5, H6⟩

/-- Witness for C1, Scenario C: duration 18000, initial window 14400, steady
window 3600, overlap 3 give exactly the parts `[0, 14403]` and
`[14400, 18003]`, the first of which is `[0, I + O]`. -/
theorem split_final_video_parts_witness :
    split_final_video true 14400 3600 3 18000 5
        = some [⟨0, 14403⟩, ⟨14400, 18003⟩] ∧
    List.head [TimeInterval.mk 0 14403, TimeInterval.mk 14400 18003] (by decide)
        = ⟨0, 14400 + 3⟩ :=
  ⟨by norm_num [split_final_video, splitLoop],
   ((split_final_video_parts 14400 3600 3 18000 5 [⟨0, 14403⟩, ⟨14400, 18003⟩]
       (by norm_num [split_final_video, splitLoop])).2 (by norm_num)).2.1 (by decide)⟩

/-- Claim C3: whenever the splitter actually splits (`I + O < D`) and its
loop exits within the fuel, the nominal spans — `[0, I]` for the first part,
`[start, start + S]` for each later part — chain at nominal ends, the last
nominal end reaches the duration, and every instant of `[0, D)` lies in some
nominal span: full coverage, no gap. -/
theorem split_final_video_coverage (I S O D : ℚ) (fuel : ℕ)
    (parts : List TimeInterval) (hlt : I + O < D)
    (h : split_final_video true I S O D fuel = some parts) :
    (∀ hne : parts ≠ [],
        (parts.head hne).start = 0 ∧ (parts.head hne).stop - O = I) ∧
    (∀ iv ∈ parts.tail, iv.stop - O = iv.start + S) ∧
    chained S O parts ∧
    (∀ hne : parts ≠ [], D ≤ (parts.getLast hne).stop - O) ∧
    (∀ x : ℚ, 0 ≤ x → x < D → ∃ iv ∈ parts, iv.start ≤ x ∧ x < iv.stop - O) := by
  rw [split_final_video, if_neg (by simp), if_neg (not_le.mpr hlt)] at h
  obtain ⟨_, H2, H3, H4, _, H6, H7⟩ := splitLoop_spec S O D fuel 0 I parts h
  refine ⟨?_, ?_, H4, H6, H7⟩
  · intro hne
    rw [H2 hne]
    exact ⟨rfl, by show (I + O) - O = I; ring⟩
  · intro iv hiv
    have := H3 iv hiv
    linarith

/-- Witness for C3, Scenario C: the two emitted parts chain at their nominal
ends. -/
theorem split_final_video_coverage_witness :
    (14400 : ℚ) + 3 < 18000 ∧
    chained 3600 3 [⟨0, 14403⟩, ⟨14400, 18003⟩] :=
  ⟨by norm_num,
   (split_final_video_coverage 14400 3600 3 18000 5 [⟨0, 14403⟩, ⟨14400, 18003⟩]
       (by norm_num) (by norm_num [split_final_video, splitLoop])).2.2.1⟩

/-- With `n * S` already bridging the gap between `ns` and the duration, the
loop exits within `n + 2` iterations. -/
theorem splitLoop_halts (S O D : ℚ) :
    ∀ (n : ℕ) (s ns : ℚ), D ≤ ns + n * S →
      ∃ l, splitLoop S O D (n + 2) s ns (ns + O) = some l := by
  intro n
  induction n with
  | zero =>
      intro s ns hD
      have hns : ¬ ns < D := not_lt.mpr (by simpa using hD)
      by_cases hs : s < D
      · exact ⟨[⟨s, ns + O⟩], by simp [splitLoop, hs, hns]⟩
      · exact ⟨[], by simp [splitLoop, hs]⟩
  | succ k ih =>
      intro s ns hD
      by_cases hs : s < D
      · obtain ⟨l, hl⟩ := ih ns (ns + S) (by push_cast at hD ⊢; linarith)
        exact ⟨⟨s, ns + O⟩ :: l, by
          show splitLoop S O D (k + 1 + 2) s ns (ns + O) = some (⟨s, ns + O⟩ :: l)
          have : k + 1 + 2 = (k + 2) + 1 := by omega
          rw [this, splitLoop, if_pos hs, hl]⟩
      · exact ⟨[], by
          have : k + 1 + 2 = (k + 2) + 1 := by omega
          rw [this, splitLoop, if_neg hs]⟩

/-- Claim C10 is false as an if-and-only-if: with `I = 50`, `S = 0`,
`O = -100` and `D = 10` the initial boundary does not cover the duration
(`I + O = -50 < 10`) and the steady window is not strictly positive, yet the
loop terminates after one part, because the unvalidated negative overlap
puts the second running start (50) past the duration. -/
theorem split_final_video_termination_counterexample :
    (50 : ℚ) + (-100) < 10 ∧ (0 : ℚ) ≤ 0 ∧
    split_final_video true 50 0 (-100) 10 5 = some [⟨0, -50⟩] := by
  refine ⟨by norm_num, le_refl 0, by norm_num [split_final_video, splitLoop]⟩

/-- Claim C10, amended: a strictly positive steady window always lets the
splitting loop exit with some fuel; and when additionally the configured
initial window and overlap are nonnegative (as every real configuration has
them), a steady window of zero or less makes the loop run forever whenever
the initial boundary does not already cover the duration — the running start
then never reaches the duration, so every fuel runs out. -/
theorem split_final_video_termination (I S O D : ℚ) :
    (0 < S → ∃ fuel l, split_final_video true I S O D fuel = some l) ∧
    (S ≤ 0 → 0 ≤ I → 0 ≤ O → I + O < D →
      ∀ fuel, split_final_video true I S O D fuel = none) := by
  constructor
  · intro hS
    by_cases hc : I + O ≥ D
    · exact ⟨0, [], by rw [split_final_video, if_neg (by simp), if_pos hc]⟩
    · obtain ⟨n, hn⟩ := exists_nat_ge ((D - I) / S)
      have hD : D ≤ I + n * S := by
        have h1 : (D - I) / S * S ≤ (n : ℚ) * S :=
          mul_le_mul_of_nonneg_right hn hS.le
        rw [div_mul_cancel₀ _ (ne_of_gt hS)] at h1
        linarith
      obtain ⟨l, hl⟩ := splitLoop_halts S O D n 0 I hD
      exact ⟨n + 2, l, by rw [split_final_video, if_neg (by simp), if_neg hc]; exact hl⟩
  · intro hS hI hO hID fuel
    have hdiv : ∀ f : ℕ, ∀ s ns : ℚ, s < D → ns < D →
        splitLoop S O D f s ns (ns + O) = none := by
      intro f
      induction f with
      | zero => intro s ns _ _; rfl
      | succ k ih =>
          intro s ns hsD hnsD
          have hrec := ih ns (ns + S) hnsD (by linarith)
          rw [splitLoop, if_pos hsD, hrec]
    have h0D : (0 : ℚ) < D := by linarith
    have hID2 : I < D := by linarith
    rw [split_final_video, if_neg (by simp), if_neg (not_le.mpr hID)]
    exact hdiv fuel 0 I h0D hID2

/-- Witness for the amended C10: a positive steady window terminates, a zero
steady window with nonnegative windows does not (here shown at fuel 4). -/
theorem split_final_video_termination_witness :
    (∃ fuel l, split_final_video true 3 2 0 10 fuel = some l) ∧
    split_final_video true 3 0 0 10 4 = none :=
  ⟨(split_final_video_termination 3 2 0 10).1 (by norm_num),
   (split_final_video_termination 3 0 0 10).2 (le_refl 0) (by norm_num) (le_refl 0)
     (by norm_num) 4⟩

end AutoDanmaku
